import Mathlib

/-!
Verification of the hw7_grpc microservice (src/hw7_grpc/service.go): the
authorization gate, ACL parsing, audit-event publication through the two
event busses, and the tumbling-window statistics aggregator.

Shallow embedding: Go maps become association lists, channels become
explicit input alphabets of the select loops that receive on them, and the
interceptors become pure functions from their inputs (metadata, ACL table,
full method name, wrapped-handler outcome) to an outcome record listing the
returned value and every event published.
-/

/-- Errors returned to callers; `unauthenticated msg` mirrors
`grpc.Errorf(codes.Unauthenticated, msg)`; `handlerFailure` stands for an
arbitrary error produced by a wrapped handler. -/
inductive RpcError where
  | unauthenticated (msg : String)
  | handlerFailure (msg : String)
deriving DecidableEq

deriving instance DecidableEq for Except

/-- Audit message carried on the log bus (service.go:239-242). -/
structure logMsg where
  methodName : String
  consumerName : String
deriving DecidableEq

/-- Audit message carried on the stat bus (service.go:249-252). -/
structure statMsg where
  methodName : String
  consumerName : String
deriving DecidableEq

/-- Go map read with comma-ok, modelled on an association list. -/
def assocLookup {α : Type} : List (String × α) → String → Option α
  | [], _ => none
  | (k, v) :: rest, key => if k = key then some v else assocLookup rest key

/-- The ACL table `map[string][]string` (service.go:233). -/
abbrev ACLStorage := List (String × List String)

/-- Incoming call metadata: key → list of values, as in grpc `metadata.MD`. -/
abbrev Metadata := List (String × List String)

/-- Character-level worker for `splitOnSlash`. -/
def splitOnSlashAux : List Char → List Char → List String
  | [], acc => [String.mk acc.reverse]
  | ch :: rest, acc =>
    if ch = '/' then String.mk acc.reverse :: splitOnSlashAux rest []
    else splitOnSlashAux rest (ch :: acc)

/-- `strings.Split(s, "/")` (service.go:46): split at every slash, keeping
empty fields, so a string with n slashes yields n+1 fields. -/
def splitOnSlash (s : String) : List String :=
  splitOnSlashAux s.data []

/-- The wildcard test of service.go:46-49: the rule splits into exactly three
segments and the third is the literal `*`. The method being checked plays no
part in this test. -/
def isWildcardRule (m : String) : Bool :=
  let splitted := splitOnSlash m
  splitted.length == 3 && splitted.getD 2 "" == "*"

/-- The rule loop of `checkBizPermission` (service.go:44-54): a wildcard rule
returns nil at once, otherwise exact equality with the method is required. -/
def checkRules : List String → String → Except RpcError Unit
  | [], _ => .error (.unauthenticated "permission denied")
  | m :: rest, method =>
    if isWildcardRule m then .ok ()
    else if m = method then .ok ()
    else checkRules rest method

/-- `checkBizPermission` (service.go:38-57). -/
def checkBizPermission (acl : ACLStorage) (consumer method : String) :
    Except RpcError Unit :=
  match assocLookup acl consumer with
  | none => .error (.unauthenticated "permission denied")
  | some allowedMethods => checkRules allowedMethods method

/-- `getConsumerNameFromContext` (service.go:25-36); `none` models a context
without incoming metadata. -/
def getConsumerNameFromContext (md : Option Metadata) : Except RpcError String :=
  match md with
  | none => .error (.unauthenticated "can not get metadata")
  | some mdv =>
    match assocLookup mdv "consumer" with
    | none => .error (.unauthenticated "can not get metadata")
    | some consumer =>
      if consumer.length = 1 then .ok (consumer.headD "")
      else .error (.unauthenticated "can not get metadata")

/-- Spec-side match policy, written from the words of claim C1: a rule of the
form `service/*` (three path segments, last the literal `*`) matches exactly
the methods whose service segment equals the rule's service segment; any
other rule requires exact string equality with the full method path. -/
def specRuleMatches (rule method : String) : Bool :=
  let rs := splitOnSlash rule
  if rs.length == 3 && rs.getD 2 "" == "*" then
    rs.getD 1 "" == (splitOnSlash method).getD 1 ""
  else rule == method

/-- Spec-side permission check, written from the words of claim C1, to be
compared against `checkBizPermission`. -/
def specPermits (acl : ACLStorage) (consumer method : String) : Bool :=
  match assocLookup acl consumer with
  | none => false
  | some rules => rules.any (fun r => specRuleMatches r method)

/-- JSON values, the input domain of `json.Unmarshal` as used by `parseACL`
(service.go:59-79); numbers carry no payload the parser looks at. -/
inductive Json where
  | null
  | bool (b : Bool)
  | num (n : Int)
  | str (s : String)
  | arr (elems : List Json)
  | obj (fields : List (String × Json))

/-- `json.Unmarshal` of a list of array elements into a `[]string`
(service.go:70): a string element is kept, a `null` element leaves the grown
slice slot at its zero value `""` and produces no error, anything else is an
unmarshal type error. -/
def stringsOf : List Json → Except String (List String)
  | [] => .ok []
  | Json.str s :: rest =>
    match stringsOf rest with
    | .error e => .error e
    | .ok l => .ok (s :: l)
  | Json.null :: rest =>
    match stringsOf rest with
    | .error e => .error e
    | .ok l => .ok ("" :: l)
  | _ :: _ => .error "json: cannot unmarshal value into Go value of type []string"

/-- `json.Unmarshal(*v, &val)` with `val []string` (service.go:69-70), applied
to the raw sub-document of one non-null ACL value: a JSON array is
unmarshalled elementwise, any other value is a type error. A null ACL value
never reaches this call — the dereference `*v` panics first (see
`parseACLFields`) — so no null case appears here. -/
def unmarshalStringArray : Json → Except String (List String)
  | Json.arr es => stringsOf es
  | _ => .error "json: cannot unmarshal value into Go value of type []string"

/-- Outcome of the ACL parse as Go observes it: a returned table, a returned
error, or a runtime panic. -/
inductive ParseOutcome where
  | ok (t : ACLStorage)
  | err (msg : String)
  | panicked
deriving DecidableEq

/-- The field loop of `parseACL` (service.go:68-76), in list order standing in
for Go's unspecified map iteration order. A JSON null object value was stored
in the map as a nil `*json.RawMessage` (unmarshalling JSON null sets a
pointer to nil), so the dereference `*v` at service.go:70 panics on it; any
other value is unmarshalled into a `[]string`, returning the first error. -/
def parseACLFields : List (String × Json) → ParseOutcome
  | [] => .ok []
  | (_, Json.null) :: _ => .panicked
  | (k, v) :: rest =>
    match unmarshalStringArray v with
    | .error e => .err e
    | .ok val =>
      match parseACLFields rest with
      | .err e => .err e
      | .panicked => .panicked
      | .ok r => .ok ((k, val) :: r)

/-- `parseACL` (service.go:59-79): `json.Unmarshal` into a
`map[string]*json.RawMessage` succeeds exactly on a JSON object (fields kept)
or a JSON `null` (documented no-op leaving the nil map, so the loop body
never runs); every other top-level value is a type error; the field loop
itself may panic on a null value. -/
def parseACL (j : Json) : ParseOutcome :=
  match j with
  | Json.null => .ok []
  | Json.obj fs => parseACLFields fs
  | _ => .err "json: cannot unmarshal value into Go value of type map[string]*json.RawMessage"

/-- Outcome of `StartMyMicroservice` (service.go:259-314) up to and including
the `net.Listen` call: the returned error, whether the process panicked in
`parseACL`, whether the TCP listener was opened, and the ACL table installed
in the service. -/
structure StartOutcome where
  err : Option String
  crashed : Bool
  listenerOpened : Bool
  table : Option ACLStorage

/-- `StartMyMicroservice` (service.go:259-268): a `parseACL` error returns
before `net.Listen`, and a panic inside `parseACL` likewise aborts before it;
otherwise the listener opens and the parsed table is installed (the listen
syscall itself is an external collaborator assumed to succeed). -/
def startMyMicroservice (acl : Json) : StartOutcome :=
  match parseACL acl with
  | .err e => { err := some e, crashed := false, listenerOpened := false, table := none }
  | .panicked => { err := none, crashed := true, listenerOpened := false, table := none }
  | .ok t => { err := none, crashed := false, listenerOpened := true, table := some t }

/-- Spec-side well-formedness, written from the words of claim C6: the
specification is a JSON object mapping consumer names to arrays of pattern
strings. -/
def strListOf : List Json → Option (List String)
  | [] => some []
  | Json.str s :: rest => (strListOf rest).map (s :: ·)
  | _ :: _ => none

/-- Spec-side reading of one ACL value, written from the words of claim C6:
it must be an array of pattern strings. -/
def patternList : Json → Option (List String)
  | Json.arr es => strListOf es
  | _ => none

/-- Spec-side shape test, written from the words of claim C6: a JSON object
each of whose values is an array of strings. -/
def isObjectOfStringArrays : Json → Bool
  | Json.obj fs => fs.all (fun kv => (patternList kv.2).isSome)
  | _ => false

/-- The value shapes the field loop reads without error or panic for one ACL
entry: an array whose elements are strings or nulls (a null element is read
as `""`). A null value panics; any other shape is an unmarshal error. -/
def acceptsValue : Json → Bool
  | Json.arr es => es.all (fun e =>
      match e with
      | Json.str _ => true
      | Json.null => true
      | _ => false)
  | _ => false

/-- The top-level shapes `parseACL` accepts: `null`, or an object all of
whose values satisfy `acceptsValue`. -/
def acceptsSpec : Json → Bool
  | Json.null => true
  | Json.obj fs => fs.all (fun kv => acceptsValue kv.2)
  | _ => false

/-- Outcome of `unaryInterceptor` (service.go:316-347): the response and error
returned to the caller, whether the wrapped handler ran, and the audit events
sent on `incomingLogsCh` resp. `incomingStatCh`. -/
structure UnaryOutcome (α : Type) where
  resp : Option α
  err : Option RpcError
  handlerInvoked : Bool
  logPublished : List logMsg
  statPublished : List statMsg
deriving DecidableEq

/-- `unaryInterceptor` (service.go:316-347): authorize, check permission, on
success publish one audit message to each bus, then invoke the handler and
return its pair unchanged; either failure returns `(nil, err)` before any
publication. -/
def unaryInterceptor {α : Type} (acl : ACLStorage) (md : Option Metadata)
    (fullMethod : String) (handler : Option α × Option RpcError) :
    UnaryOutcome α :=
  match getConsumerNameFromContext md with
  | .error e =>
      { resp := none, err := some e, handlerInvoked := false,
        logPublished := [], statPublished := [] }
  | .ok consumer =>
    match checkBizPermission acl consumer fullMethod with
    | .error e =>
        { resp := none, err := some e, handlerInvoked := false,
          logPublished := [], statPublished := [] }
    | .ok _ =>
        { resp := handler.1, err := handler.2, handlerInvoked := true,
          logPublished := [{ methodName := fullMethod, consumerName := consumer }],
          statPublished := [{ methodName := fullMethod, consumerName := consumer }] }

/-- Outcome of `streamInterceptor` (service.go:349-388): the returned error,
whether the wrapped handler ran, and the audit event broadcast to the log
feed resp. the stat feed. -/
structure StreamOutcome where
  err : Option RpcError
  handlerInvoked : Bool
  logFeed : Option logMsg
  statFeed : Option statMsg
deriving DecidableEq

/-- `streamInterceptor` (service.go:349-388): authorize, check permission,
then route by method identity — the `/main.Admin/Logging` invocation itself
is broadcast to every log listener, every other streaming method to every
stat listener — and finally run the wrapped handler, returning its error. -/
def streamInterceptor (acl : ACLStorage) (md : Option Metadata)
    (fullMethod : String) (handlerErr : Option RpcError) : StreamOutcome :=
  match getConsumerNameFromContext md with
  | .error e => { err := some e, handlerInvoked := false, logFeed := none, statFeed := none }
  | .ok consumer =>
    match checkBizPermission acl consumer fullMethod with
    | .error e => { err := some e, handlerInvoked := false, logFeed := none, statFeed := none }
    | .ok _ =>
      if fullMethod = "/main.Admin/Logging" then
        { err := handlerErr, handlerInvoked := true,
          logFeed := some { methodName := fullMethod, consumerName := consumer },
          statFeed := none }
      else
        { err := handlerErr, handlerInvoked := true,
          logFeed := none,
          statFeed := some { methodName := fullMethod, consumerName := consumer } }

/-- A Go `map[string]uint64` counter, as an association list. -/
abbrev CountMap := List (String × Nat)

/-- Go map assignment `mp[k] = v`: replace the entry for `k` or add one. -/
def mapSet : CountMap → String → Nat → CountMap
  | [], k, v => [(k, v)]
  | (k0, v0) :: rest, k, v =>
    if k0 = k then (k, v) :: rest else (k0, v0) :: mapSet rest k v

/-- Go map read with default: `mp[k]` yields the zero value 0 when absent. -/
def mapGetD (mp : CountMap) (k : String) : Nat :=
  (assocLookup mp k).getD 0

/-- The comma-ok increment of the Statistics loop (service.go:203-215):
create the key at 1 when absent, else increment. -/
def goBump (mp : CountMap) (k : String) : CountMap :=
  match assocLookup mp k with
  | none => mapSet mp k 1
  | some v => mapSet mp k (v + 1)

/-- The `Stat` message (service.go:463-470, as filled at service.go:191-195). -/
structure Stat where
  timestamp : Int
  byMethod : CountMap
  byConsumer : CountMap
deriving DecidableEq

/-- The two window counters `c` and `m` of `Statistics` (service.go:185-186). -/
structure StatWindow where
  c : CountMap
  m : CountMap
deriving DecidableEq

/-- Fresh counters, as created at service.go:185-186 and again at 199-200. -/
def windowInit : StatWindow := { c := [], m := [] }

/-- Processing one stat message (service.go:202-215): bump the consumer
counter and the method counter. -/
def statEventStep (st : StatWindow) (msg : statMsg) : StatWindow :=
  { c := goBump st.c msg.consumerName, m := goBump st.m msg.methodName }

/-- The input alphabet of the `Statistics` select loop (service.go:188-221):
a ticker tick, a message on the statListener's `statCh`, or a signal on the
local `closeCh` created at service.go:174. The statListener's own `closeCh`
(service.go:180) is not among the channels this select receives on. -/
inductive StatisticsSelect where
  | tick
  | recvStat (msg : statMsg)
  | recvLocalClose

/-- One iteration of the `Statistics` select loop (service.go:188-221):
`none` means the handler returned; otherwise the new window state and an
optionally emitted snapshot. A tick sends the current counters with
`Timestamp: 0` and resets both maps; only the local close channel makes the
handler return. -/
def statisticsStep (st : StatWindow) :
    StatisticsSelect → Option (StatWindow × Option Stat)
  | .tick =>
      some (windowInit, some { timestamp := 0, byMethod := st.m, byConsumer := st.c })
  | .recvStat msg => some (statEventStep st msg, none)
  | .recvLocalClose => none

/-- The window state after a sequence of stat events received from fresh
counters, i.e. within a single window. -/
def windowAfter (events : List statMsg) : StatWindow :=
  events.foldl statEventStep windowInit

/-- Operations observed by the log-bus dispatcher `logsSender`
(service.go:87-107) interleaved with `addListener` (service.go:81-85):
register a new subscriber, or broadcast one published event. -/
inductive BusOp where
  | subscribe (id : Nat)
  | publish (e : logMsg)

/-- Bus state: each registered subscriber (in registration order, since
`addListener` appends) with the sequence of events delivered to its queue. -/
abbrev BusState := List (Nat × List logMsg)

/-- One dispatcher step: `subscribe` appends a subscriber with an empty queue
(service.go:83); `publish` forwards the event to every registered
subscriber's queue, in registration order (service.go:91-95). -/
def busStep (st : BusState) : BusOp → BusState
  | .subscribe i => st ++ [(i, [])]
  | .publish e => st.map fun p => (p.1, p.2 ++ [e])

/-- The bus state after a whole operation trace, starting with no
subscribers (service.go:273). -/
def busRun (ops : List BusOp) : BusState :=
  ops.foldl busStep []

/-- The events published in a trace, in publish order. -/
def publishesOf : List BusOp → List logMsg
  | [] => []
  | BusOp.publish e :: rest => e :: publishesOf rest
  | BusOp.subscribe _ :: rest => publishesOf rest

/-- Spec-side delivery ledger, written from the words of claim C7: every
subscriber's queue holds exactly the events published after its
registration, in publish order — no gaps, no duplicates. -/
def expectedQueues : List BusOp → BusState
  | [] => []
  | BusOp.subscribe i :: rest => (i, publishesOf rest) :: expectedQueues rest
  | BusOp.publish _ :: rest => expectedQueues rest

/-- The registry mutations present in the source: `addListener`
(service.go:81-85) and `addStatListener` (service.go:130-134) append to the
respective slices. `cancelStream` models cancellation of a streaming call's
context: no statement in the source removes an element from either slice and
the `Logging` select loop (service.go:156-169) has no context-done case, so
the registry transition for a cancellation is the identity. -/
inductive RegistryOp where
  | addListener (id : Nat)
  | addStatListener (id : Nat)
  | cancelStream (id : Nat)

/-- The two subscriber slices of the service struct (service.go:232,234). -/
structure Registry where
  listeners : List Nat
  statListeners : List Nat
deriving DecidableEq

/-- One registry transition, as described on `RegistryOp`. -/
def registryStep (r : Registry) : RegistryOp → Registry
  | .addListener i => { r with listeners := r.listeners ++ [i] }
  | .addStatListener i => { r with statListeners := r.statListeners ++ [i] }
  | .cancelStream _ => r

/-- The registry after a whole operation trace, starting empty
(service.go:273,276). -/
def registryRun (ops : List RegistryOp) : Registry :=
  ops.foldl registryStep { listeners := [], statListeners := [] }

/-- The per-subscription channels of the program, indexed by subscription:
`logs i` and `logClose i` are the `listener` struct's channels
(service.go:150-153), `stat i` and `statListenerClose i` the `statListener`
struct's channels (service.go:178-181), `statLocalClose i` the local
`closeCh` created at service.go:174, and `tick i` the ticker channel of
service.go:176. -/
inductive Chan where
  | logs (i : Nat)
  | logClose (i : Nat)
  | stat (i : Nat)
  | statListenerClose (i : Nat)
  | statLocalClose (i : Nat)
  | tick (i : Nat)
deriving DecidableEq

/-- The channels the `Logging` handler for subscription `i` receives on: its
select statement (service.go:156-168) has the `listener.logsCh` and
`listener.closeCh` cases. -/
def loggingSelects (i : Nat) : List Chan :=
  [Chan.logs i, Chan.logClose i]

/-- The channels the `Statistics` handler for subscription `i` receives on:
its select statement (service.go:188-220) has the ticker case, the
`sl.statCh` case, and the local `closeCh` case. -/
def statisticsSelects (i : Nat) : List Chan :=
  [Chan.tick i, Chan.stat i, Chan.statLocalClose i]

/-- The close signals `statsSender` emits on shutdown (service.go:119-124):
one send on each registered statListener's `closeCh`. -/
def statsSenderCloseSends (ids : List Nat) : List Chan :=
  ids.map Chan.statListenerClose

/-- Every per-subscription channel some statement of the source sends on:
`logsSender` sends on `logsCh` (service.go:93) and `closeCh`
(service.go:100) of each log listener, `streamInterceptor` also on `logsCh`
(service.go:370) and `statCh` (service.go:382), and `statsSender` on
`statCh` (service.go:115) and `closeCh` (service.go:122) of each
statListener. No statement anywhere sends on a Statistics handler's local
`closeCh`. -/
def programSendTargets (logIds statIds : List Nat) : List Chan :=
  logIds.map Chan.logs ++ logIds.map Chan.logClose ++
    statIds.map Chan.stat ++ statIds.map Chan.statListenerClose

/-- The channel each `Statistics` select case receives on, for
subscription `i`. -/
def chanOfStatisticsSelect (i : Nat) : StatisticsSelect → Chan
  | .tick => Chan.tick i
  | .recvStat _ => Chan.stat i
  | .recvLocalClose => Chan.statLocalClose i

/-- The `Event` message (service.go:401-409). -/
structure Event where
  timestamp : Int
  consumer : String
  method : String
  host : String
deriving DecidableEq

/-- The event the `Logging` handler sends for one received log message
(service.go:159-164): `Timestamp` is left at Go's zero value 0 and `Host` is
the hard-coded literal; the service struct (service.go:228-237) retains no
listening address, so nothing here can depend on it. -/
def loggingEvent (m : logMsg) : Event :=
  { timestamp := 0, consumer := m.consumerName, method := m.methodName,
    host := "127.0.0.1:8083" }

/-- The input alphabet of the `Logging` select loop (service.go:156-168): a
message on `listener.logsCh` or a signal on `listener.closeCh`. -/
inductive LoggingInput where
  | msg (m : logMsg)
  | close

/-- The events the `Logging` handler sends over its stream for a sequence of
select-loop inputs: each log message becomes one `Event`; the close signal
returns from the handler. -/
def loggingRun : List LoggingInput → List Event
  | [] => []
  | LoggingInput.msg m :: rest => loggingEvent m :: loggingRun rest
  | LoggingInput.close :: _ => []

theorem checkRules_ok_iff (rules : List String) (method : String) :
    checkRules rules method = .ok () ↔
      ∃ r ∈ rules, isWildcardRule r = true ∨ r = method := by
  induction rules with
  | nil => simp [checkRules]
  | cons m rest ih =>
    by_cases hw : isWildcardRule m = true
    · simp [checkRules, hw]
    · by_cases he : m = method
      · simp [checkRules, hw, he]
      · simp [checkRules, hw, he, ih]

theorem checkRules_total (rules : List String) (method : String) :
    checkRules rules method = .ok () ∨
      checkRules rules method = .error (.unauthenticated "permission denied") := by
  induction rules with
  | nil => right; rfl
  | cons m rest ih =>
    by_cases hw : isWildcardRule m = true
    · left; simp [checkRules, hw]
    · by_cases he : m = method
      · left; simp [checkRules, hw, he]
      · simpa [checkRules, hw, he] using ih

theorem checkBizPermission_total (acl : ACLStorage) (consumer method : String) :
    checkBizPermission acl consumer method = .ok () ∨
      checkBizPermission acl consumer method =
        .error (.unauthenticated "permission denied") := by
  unfold checkBizPermission
  cases assocLookup acl consumer with
  | none => right; rfl
  | some rules => exact checkRules_total rules method

/-- C1 (amended): checkBizPermission succeeds if and only if the permission
table entry for the consumer contains a rule exactly equal to the full method
path, or a rule with three slash-separated segments whose last segment is the
literal `*` — such a wildcard rule grants every method of every service, not
only methods of the rule's own service; in every other case (including an
unknown consumer) it fails Unauthenticated with "permission denied". -/
theorem C1_checkBizPermission_characterization
    (acl : ACLStorage) (consumer method : String) :
    (checkBizPermission acl consumer method = .ok () ↔
      ∃ rules, assocLookup acl consumer = some rules ∧
        ∃ r ∈ rules, isWildcardRule r = true ∨ r = method) ∧
    (checkBizPermission acl consumer method ≠ .ok () →
      checkBizPermission acl consumer method =
        .error (.unauthenticated "permission denied")) := by
  constructor
  · unfold checkBizPermission
    cases h : assocLookup acl consumer with
    | none => simp
    | some rules => simp [checkRules_ok_iff]
  · intro hne
    rcases checkBizPermission_total acl consumer method with h | h
    · exact absurd h hne
    · exact h

/-- C1 witness: consumer "c1" holds only the exact rule "/main.Biz/Check", so
the call to "/main.Biz/Test" fails with "permission denied". -/
theorem C1_checkBizPermission_characterization_witness :
    checkBizPermission [("c1", ["/main.Biz/Check"])] "c1" "/main.Biz/Test" =
      .error (.unauthenticated "permission denied") :=
  (C1_checkBizPermission_characterization
    [("c1", ["/main.Biz/Check"])] "c1" "/main.Biz/Test").2 (by decide)

/-- C1 counterexample: the wildcard rule "/main.Biz/*" lets consumer "c" call
"/main.Admin/Logging", although the claim's match policy — a `service/*` rule
covers only methods of its own service — rejects that call, and the method
belongs to a different service than the rule. -/
theorem C1_wildcard_crosses_services :
    checkBizPermission [("c", ["/main.Biz/*"])] "c" "/main.Admin/Logging" =
        .ok () ∧
      specPermits [("c", ["/main.Biz/*"])] "c" "/main.Admin/Logging" = false := by
  constructor
  · decide
  · decide

theorem authGate_cases (acl : ACLStorage) (md : Option Metadata)
    (fullMethod : String)
    (h : md = none
      ∨ (∃ mdv, md = some mdv ∧ assocLookup mdv "consumer" = none)
      ∨ (∃ mdv vs, md = some mdv ∧ assocLookup mdv "consumer" = some vs ∧
          1 < vs.length)
      ∨ (∃ c, getConsumerNameFromContext md = .ok c ∧
          checkBizPermission acl c fullMethod ≠ .ok ())) :
    getConsumerNameFromContext md =
        .error (.unauthenticated "can not get metadata") ∨
      (∃ c, getConsumerNameFromContext md = .ok c ∧
        checkBizPermission acl c fullMethod =
          .error (.unauthenticated "permission denied")) := by
  rcases h with h | ⟨mdv, hmd, hlk⟩ | ⟨mdv, vs, hmd, hlk, hlen⟩ | ⟨c, hok, hperm⟩
  · left; subst h; rfl
  · left; subst hmd; simp [getConsumerNameFromContext, hlk]
  · left
    subst hmd
    have hne : vs.length ≠ 1 := by omega
    simp [getConsumerNameFromContext, hlk, hne]
  · right
    refine ⟨c, hok, ?_⟩
    rcases checkBizPermission_total acl c fullMethod with h' | h'
    · exact absurd h' hperm
    · exact h'

/-- C2: for every inbound call with absent metadata, a missing "consumer"
entry, or more than one "consumer" value, and for every call whose consumer
the permission check denies, both interceptors return an Unauthenticated
error, the wrapped handler is not invoked, and no audit event is published
to either bus or feed. -/
theorem C2_unauthenticated_publishes_nothing {α : Type} (acl : ACLStorage)
    (md : Option Metadata) (fullMethod : String)
    (handler : Option α × Option RpcError) (streamHandlerErr : Option RpcError)
    (h : md = none
      ∨ (∃ mdv, md = some mdv ∧ assocLookup mdv "consumer" = none)
      ∨ (∃ mdv vs, md = some mdv ∧ assocLookup mdv "consumer" = some vs ∧
          1 < vs.length)
      ∨ (∃ c, getConsumerNameFromContext md = .ok c ∧
          checkBizPermission acl c fullMethod ≠ .ok ())) :
    (∃ emsg, (unaryInterceptor acl md fullMethod handler).err =
        some (.unauthenticated emsg)) ∧
    (unaryInterceptor acl md fullMethod handler).handlerInvoked = false ∧
    (unaryInterceptor acl md fullMethod handler).logPublished = [] ∧
    (unaryInterceptor acl md fullMethod handler).statPublished = [] ∧
    (∃ emsg, (streamInterceptor acl md fullMethod streamHandlerErr).err =
        some (.unauthenticated emsg)) ∧
    (streamInterceptor acl md fullMethod streamHandlerErr).handlerInvoked
        = false ∧
    (streamInterceptor acl md fullMethod streamHandlerErr).logFeed = none ∧
    (streamInterceptor acl md fullMethod streamHandlerErr).statFeed = none := by
  rcases authGate_cases acl md fullMethod h with hg | ⟨c, hok, hperm⟩
  · simp [unaryInterceptor, streamInterceptor, hg]
  · simp [unaryInterceptor, streamInterceptor, hok, hperm]

/-- C2 witness: a call without metadata is rejected and publishes nothing. -/
theorem C2_unauthenticated_publishes_nothing_witness :
    (∃ emsg, (unaryInterceptor ([] : ACLStorage) none "/main.Biz/Check"
        ((none, none) : Option Nat × Option RpcError)).err =
        some (.unauthenticated emsg)) ∧
    (unaryInterceptor ([] : ACLStorage) none "/main.Biz/Check"
        ((none, none) : Option Nat × Option RpcError)).handlerInvoked = false ∧
    (unaryInterceptor ([] : ACLStorage) none "/main.Biz/Check"
        ((none, none) : Option Nat × Option RpcError)).logPublished = [] ∧
    (unaryInterceptor ([] : ACLStorage) none "/main.Biz/Check"
        ((none, none) : Option Nat × Option RpcError)).statPublished = [] ∧
    (∃ emsg, (streamInterceptor [] none "/main.Biz/Check" none).err =
        some (.unauthenticated emsg)) ∧
    (streamInterceptor [] none "/main.Biz/Check" none).handlerInvoked = false ∧
    (streamInterceptor [] none "/main.Biz/Check" none).logFeed = none ∧
    (streamInterceptor [] none "/main.Biz/Check" none).statFeed = none :=
  C2_unauthenticated_publishes_nothing [] none "/main.Biz/Check"
    (none, none) none (Or.inl rfl)

/-- C3: for every unary call that passes authorization and the permission
check, the interceptor publishes exactly one audit event carrying the call's
consumer and full method to the log bus and exactly one to the stat bus,
whatever the wrapped handler's outcome, and returns that outcome unchanged. -/
theorem C3_unary_publishes_once_and_passes_through {α : Type}
    (acl : ACLStorage) (md : Option Metadata) (fullMethod consumer : String)
    (handler : Option α × Option RpcError)
    (hauth : getConsumerNameFromContext md = .ok consumer)
    (hperm : checkBizPermission acl consumer fullMethod = .ok ()) :
    unaryInterceptor acl md fullMethod handler =
      { resp := handler.1, err := handler.2, handlerInvoked := true,
        logPublished := [{ methodName := fullMethod, consumerName := consumer }],
        statPublished :=
          [{ methodName := fullMethod, consumerName := consumer }] } := by
  simp [unaryInterceptor, hauth, hperm]

/-- C3 witness: consumer "c1" calling its permitted "/main.Biz/Check" with a
handler returning value 7 and no error. -/
theorem C3_unary_publishes_once_and_passes_through_witness :
    unaryInterceptor [("c1", ["/main.Biz/Check"])]
        (some [("consumer", ["c1"])]) "/main.Biz/Check"
        ((some 7, none) : Option Nat × Option RpcError) =
      { resp := some 7, err := none, handlerInvoked := true,
        logPublished := [{ methodName := "/main.Biz/Check", consumerName := "c1" }],
        statPublished :=
          [{ methodName := "/main.Biz/Check", consumerName := "c1" }] } :=
  C3_unary_publishes_once_and_passes_through
    [("c1", ["/main.Biz/Check"])] (some [("consumer", ["c1"])])
    "/main.Biz/Check" "c1" (some 7, none) (by decide) (by decide)

/-- C4: for every streaming call that passes authorization, publication is
routed by method identity — an invocation of "/main.Admin/Logging" puts its
audit event on the log feed, and any other streaming method (the statistics
subscription included) puts it on the stat feed. -/
theorem C4_stream_routes_by_method (acl : ACLStorage) (md : Option Metadata)
    (fullMethod consumer : String) (streamHandlerErr : Option RpcError)
    (hauth : getConsumerNameFromContext md = .ok consumer)
    (hperm : checkBizPermission acl consumer fullMethod = .ok ()) :
    (fullMethod = "/main.Admin/Logging" →
      streamInterceptor acl md fullMethod streamHandlerErr =
        { err := streamHandlerErr, handlerInvoked := true,
          logFeed := some { methodName := fullMethod, consumerName := consumer },
          statFeed := none }) ∧
    (fullMethod ≠ "/main.Admin/Logging" →
      streamInterceptor acl md fullMethod streamHandlerErr =
        { err := streamHandlerErr, handlerInvoked := true,
          logFeed := none,
          statFeed :=
            some { methodName := fullMethod, consumerName := consumer } }) := by
  constructor
  · intro hm
    subst hm
    simp [streamInterceptor, hauth, hperm]
  · intro hm
    simp [streamInterceptor, hauth, hperm, hm]

/-- C4 witness: the logging subscription's own invocation by consumer
"logger" lands on the log feed. -/
theorem C4_stream_routes_by_method_witness :
    streamInterceptor [("logger", ["/main.Admin/Logging"])]
        (some [("consumer", ["logger"])]) "/main.Admin/Logging" none =
      { err := none, handlerInvoked := true,
        logFeed := some { methodName := "/main.Admin/Logging",
                          consumerName := "logger" },
        statFeed := none } :=
  (C4_stream_routes_by_method [("logger", ["/main.Admin/Logging"])]
    (some [("consumer", ["logger"])]) "/main.Admin/Logging" "logger" none
    (by decide) (by decide)).1 rfl

theorem assocLookup_mapSet (mp : CountMap) (k k' : String) (v : Nat) :
    assocLookup (mapSet mp k v) k' =
      if k = k' then some v else assocLookup mp k' := by
  induction mp with
  | nil =>
    by_cases h : k = k' <;> simp [mapSet, assocLookup, h]
  | cons p rest ih =>
    obtain ⟨k0, v0⟩ := p
    by_cases h0 : k0 = k
    · subst h0
      by_cases h : k0 = k' <;> simp [mapSet, assocLookup, h]
    · have hkk0 : ¬k = k0 := fun h' => h0 h'.symm
      by_cases h : k0 = k'
      · subst h
        simp [mapSet, assocLookup, h0, hkk0]
      · simp [mapSet, assocLookup, h0, h, ih]

theorem assocLookup_goBump (mp : CountMap) (k k' : String) :
    assocLookup (goBump mp k) k' =
      if k = k' then some (mapGetD mp k + 1) else assocLookup mp k' := by
  unfold goBump mapGetD
  cases h : assocLookup mp k <;> simp [h, assocLookup_mapSet]

theorem assocLookup_bumpFold (f : statMsg → String) (events : List statMsg) :
    ∀ (mp : CountMap) (k : String),
      assocLookup (events.foldl (fun acc e => goBump acc (f e)) mp) k =
        if (events.filter fun e => f e == k).length = 0 then assocLookup mp k
        else some (mapGetD mp k + (events.filter fun e => f e == k).length) := by
  induction events with
  | nil => intro mp k; simp
  | cons e rest ih =>
    intro mp k
    by_cases h : f e = k
    · subst h
      rw [List.foldl_cons, ih]
      have hcons : ((e :: rest).filter fun e' => f e' == f e) =
          e :: rest.filter fun e' => f e' == f e := by
        simp [List.filter_cons]
      rw [hcons]
      by_cases hn : (rest.filter fun e' => f e' == f e).length = 0
      · simp [assocLookup_goBump, mapGetD, hn]
      · simp [assocLookup_goBump, mapGetD, hn]
        omega
    · have hcons : ((e :: rest).filter fun e' => f e' == k) =
          rest.filter fun e' => f e' == k := by
        simp [List.filter_cons, h]
      rw [List.foldl_cons, ih, hcons]
      simp [assocLookup_goBump, mapGetD, h]

theorem windowAfter_c (events : List statMsg) :
    ∀ st : StatWindow, (events.foldl statEventStep st).c =
      events.foldl (fun acc e => goBump acc e.consumerName) st.c := by
  induction events with
  | nil => intro st; rfl
  | cons e rest ih => intro st; simpa [statEventStep] using ih (statEventStep st e)

theorem windowAfter_m (events : List statMsg) :
    ∀ st : StatWindow, (events.foldl statEventStep st).m =
      events.foldl (fun acc e => goBump acc e.methodName) st.m := by
  induction events with
  | nil => intro st; rfl
  | cons e rest ih => intro st; simpa [statEventStep] using ih (statEventStep st e)

/-- C5: for every sequence of stat events received within one window, the
snapshot emitted at the next tick carries exactly the per-key counts of that
sequence — a key is present iff its count is non-zero, with that count as
value — and the counters are reset to empty in the very same step. -/
theorem C5_window_counts_and_reset (events : List statMsg) (k : String) :
    statisticsStep (windowAfter events) StatisticsSelect.tick =
      some (windowInit,
        some { timestamp := 0, byMethod := (windowAfter events).m,
               byConsumer := (windowAfter events).c }) ∧
    assocLookup (windowAfter events).c k =
      (if (events.filter fun e => e.consumerName == k).length = 0 then none
       else some (events.filter fun e => e.consumerName == k).length) ∧
    assocLookup (windowAfter events).m k =
      (if (events.filter fun e => e.methodName == k).length = 0 then none
       else some (events.filter fun e => e.methodName == k).length) := by
  refine ⟨rfl, ?_, ?_⟩
  · rw [windowAfter, windowAfter_c,
      assocLookup_bumpFold (fun e => e.consumerName) events]
    simp [windowInit, assocLookup, mapGetD]
  · rw [windowAfter, windowAfter_m,
      assocLookup_bumpFold (fun e => e.methodName) events]
    simp [windowInit, assocLookup, mapGetD]

theorem stringsOf_ok_iff (es : List Json) :
    (∃ l, stringsOf es = .ok l) ↔
      (es.all fun e =>
        match e with
        | Json.str _ => true
        | Json.null => true
        | _ => false) = true := by
  induction es with
  | nil => simp [stringsOf]
  | cons e rest ih =>
    cases e with
    | str s =>
      constructor
      · rintro ⟨l, hl⟩
        simp only [List.all_cons]
        cases hr : stringsOf rest with
        | error e' => simp [stringsOf, hr] at hl
        | ok l' => simpa using ih.mp ⟨l', hr⟩
      · intro hall
        simp only [List.all_cons, Bool.and_eq_true] at hall
        obtain ⟨l', hl'⟩ := ih.mpr hall.2
        exact ⟨s :: l', by simp [stringsOf, hl']⟩
    | null =>
      constructor
      · rintro ⟨l, hl⟩
        simp only [List.all_cons]
        cases hr : stringsOf rest with
        | error e' => simp [stringsOf, hr] at hl
        | ok l' => simpa using ih.mp ⟨l', hr⟩
      · intro hall
        simp only [List.all_cons, Bool.and_eq_true] at hall
        obtain ⟨l', hl'⟩ := ih.mpr hall.2
        exact ⟨"" :: l', by simp [stringsOf, hl']⟩
    | bool b => simp [stringsOf]
    | num n => simp [stringsOf]
    | arr es' => simp [stringsOf]
    | obj fs => simp [stringsOf]

theorem unmarshalStringArray_ok_iff (v : Json) :
    (∃ l, unmarshalStringArray v = .ok l) ↔ acceptsValue v = true := by
  cases v with
  | null => simp [unmarshalStringArray, acceptsValue]
  | bool b => simp [unmarshalStringArray, acceptsValue]
  | num n => simp [unmarshalStringArray, acceptsValue]
  | str s => simp [unmarshalStringArray, acceptsValue]
  | arr es => exact stringsOf_ok_iff es
  | obj fs => simp [unmarshalStringArray, acceptsValue]

theorem parseACLFields_ok_iff (fs : List (String × Json)) :
    (∃ t, parseACLFields fs = .ok t) ↔
      (fs.all fun kv => acceptsValue kv.2) = true := by
  induction fs with
  | nil => simp [parseACLFields]
  | cons kv rest ih =>
    obtain ⟨k, v⟩ := kv
    cases v with
    | null => simp [parseACLFields, acceptsValue]
    | bool b => simp [parseACLFields, unmarshalStringArray, acceptsValue]
    | num n => simp [parseACLFields, unmarshalStringArray, acceptsValue]
    | str s => simp [parseACLFields, unmarshalStringArray, acceptsValue]
    | obj gs => simp [parseACLFields, unmarshalStringArray, acceptsValue]
    | arr es =>
      constructor
      · rintro ⟨t, ht⟩
        simp only [List.all_cons, Bool.and_eq_true]
        cases hs : stringsOf es with
        | error e => simp [parseACLFields, unmarshalStringArray, hs] at ht
        | ok val =>
          cases hr : parseACLFields rest with
          | err e => simp [parseACLFields, unmarshalStringArray, hs, hr] at ht
          | panicked => simp [parseACLFields, unmarshalStringArray, hs, hr] at ht
          | ok r =>
            exact ⟨(unmarshalStringArray_ok_iff (Json.arr es)).mp ⟨val, hs⟩,
              ih.mp ⟨r, hr⟩⟩
      · intro hall
        simp only [List.all_cons, Bool.and_eq_true] at hall
        obtain ⟨val, hv⟩ := (unmarshalStringArray_ok_iff (Json.arr es)).mpr hall.1
        obtain ⟨r, hr⟩ := ih.mpr hall.2
        refine ⟨(k, val) :: r, ?_⟩
        have hv' : stringsOf es = .ok val := hv
        simp [parseACLFields, unmarshalStringArray, hv', hr]

theorem parseACL_ok_iff (j : Json) :
    (∃ t, parseACL j = .ok t) ↔ acceptsSpec j = true := by
  cases j with
  | null => simp [parseACL, acceptsSpec]
  | bool b => simp [parseACL, acceptsSpec]
  | num n => simp [parseACL, acceptsSpec]
  | str s => simp [parseACL, acceptsSpec]
  | arr es => simp [parseACL, acceptsSpec]
  | obj fs => exact parseACLFields_ok_iff fs

theorem parseACLFields_panicked_nullvalue (fs : List (String × Json))
    (h : parseACLFields fs = .panicked) : ∃ kv ∈ fs, kv.2 = Json.null := by
  induction fs with
  | nil => simp [parseACLFields] at h
  | cons kv rest ih =>
    obtain ⟨k, v⟩ := kv
    cases v with
    | null => exact ⟨(k, Json.null), by simp, rfl⟩
    | bool b => simp [parseACLFields, unmarshalStringArray] at h
    | num n => simp [parseACLFields, unmarshalStringArray] at h
    | str s => simp [parseACLFields, unmarshalStringArray] at h
    | obj gs => simp [parseACLFields, unmarshalStringArray] at h
    | arr es =>
      cases hs : stringsOf es with
      | error e => simp [parseACLFields, unmarshalStringArray, hs] at h
      | ok val =>
        cases hr : parseACLFields rest with
        | err e => simp [parseACLFields, unmarshalStringArray, hs, hr] at h
        | ok r => simp [parseACLFields, unmarshalStringArray, hs, hr] at h
        | panicked =>
          obtain ⟨kv', hkv', hnull⟩ := ih hr
          exact ⟨kv', by simp [hkv'], hnull⟩

theorem parseACL_panicked_nullvalue (j : Json) (h : parseACL j = .panicked) :
    ∃ fs, j = Json.obj fs ∧ ∃ kv ∈ fs, kv.2 = Json.null := by
  cases j with
  | obj fs => exact ⟨fs, rfl, parseACLFields_panicked_nullvalue fs h⟩
  | null => simp [parseACL] at h
  | bool b => simp [parseACL] at h
  | num n => simp [parseACL] at h
  | str s => simp [parseACL] at h
  | arr es => simp [parseACL] at h

theorem strListOf_unmarshal (es : List Json) (ps : List String)
    (h : strListOf es = some ps) : stringsOf es = .ok ps := by
  induction es generalizing ps with
  | nil =>
    simp [strListOf] at h
    subst h
    rfl
  | cons e rest ih =>
    cases e <;> simp [strListOf] at h
    obtain ⟨ps', hps', hcons⟩ := h
    subst hcons
    simp [stringsOf, ih ps' hps']

theorem patternList_unmarshal (v : Json) (ps : List String)
    (h : patternList v = some ps) : unmarshalStringArray v = .ok ps := by
  cases v <;> simp [patternList] at h
  exact strListOf_unmarshal _ _ h

theorem parseACLFields_exact (fs : List (String × Json))
    (h : ∀ kv ∈ fs, (patternList kv.2).isSome) :
    parseACLFields fs =
      .ok (fs.map fun kv => (kv.1, (patternList kv.2).getD [])) := by
  induction fs with
  | nil => rfl
  | cons kv rest ih =>
    obtain ⟨k, v⟩ := kv
    have hv : (patternList v).isSome := h (k, v) (by simp)
    obtain ⟨ps, hps⟩ := Option.isSome_iff_exists.mp hv
    have hrest := ih (fun kv hkv => h kv (by simp [hkv]))
    cases v with
    | arr es =>
      have hs : stringsOf es = .ok ps := patternList_unmarshal (Json.arr es) ps hps
      simp [parseACLFields, unmarshalStringArray, hs, hrest, hps]
    | null => simp [patternList] at hps
    | bool b => simp [patternList] at hps
    | num n => simp [patternList] at hps
    | str s => simp [patternList] at hps
    | obj gs => simp [patternList] at hps

/-- C6 (amended): the listener opens exactly when the specification is the
JSON literal `null` (read as an empty table) or a JSON object each of whose
values is an array of strings-or-null elements (a null element is read as the
empty string); every other specification keeps the listener closed — an
object containing a null value panics on the nil raw-message dereference
before `net.Listen`, any other malformed shape returns an unmarshal error —
and for every specification that is an object mapping consumers to arrays of
pattern strings, the resulting table holds exactly those consumers with
exactly those pattern lists. -/
theorem C6_startup_parse_characterization (j : Json) :
    ((startMyMicroservice j).listenerOpened = true ↔ acceptsSpec j = true) ∧
    (((startMyMicroservice j).err.isSome = true ∨
        (startMyMicroservice j).crashed = true) ↔ acceptsSpec j = false) ∧
    ((startMyMicroservice j).crashed = true →
      ∃ fs, j = Json.obj fs ∧ ∃ kv ∈ fs, kv.2 = Json.null) ∧
    (∀ fs, j = Json.obj fs → (∀ kv ∈ fs, (patternList kv.2).isSome) →
      (startMyMicroservice j).table =
        some (fs.map fun kv => (kv.1, (patternList kv.2).getD []))) := by
  have hlast : ∀ fs, j = Json.obj fs →
      (∀ kv ∈ fs, (patternList kv.2).isSome) →
      (startMyMicroservice j).table =
        some (fs.map fun kv => (kv.1, (patternList kv.2).getD [])) := by
    intro fs hj hall
    subst hj
    simp [startMyMicroservice, parseACL, parseACLFields_exact fs hall]
  have hiff := parseACL_ok_iff j
  cases hp : parseACL j with
  | ok t =>
    have hacc : acceptsSpec j = true := hiff.mp ⟨t, hp⟩
    exact ⟨by simp [startMyMicroservice, hp, hacc],
      by simp [startMyMicroservice, hp, hacc],
      by simp [startMyMicroservice, hp], hlast⟩
  | err e =>
    have hno : acceptsSpec j = false := by
      cases hq : acceptsSpec j with
      | false => rfl
      | true =>
        obtain ⟨t, ht⟩ := hiff.mpr hq
        rw [hp] at ht
        cases ht
    exact ⟨by simp [startMyMicroservice, hp, hno],
      by simp [startMyMicroservice, hp, hno],
      by simp [startMyMicroservice, hp], hlast⟩
  | panicked =>
    have hno : acceptsSpec j = false := by
      cases hq : acceptsSpec j with
      | false => rfl
      | true =>
        obtain ⟨t, ht⟩ := hiff.mpr hq
        rw [hp] at ht
        cases ht
    refine ⟨by simp [startMyMicroservice, hp, hno],
      by simp [startMyMicroservice, hp, hno], ?_, hlast⟩
    intro _
    exact parseACL_panicked_nullvalue j hp

/-- C6 witness: the object mapping "consumer1" to its two pattern strings
parses into exactly that table. -/
theorem C6_startup_parse_characterization_witness :
    (startMyMicroservice (Json.obj [("consumer1",
        Json.arr [Json.str "/main.Biz/Check", Json.str "/main.Biz/Add"])])).table =
      some [("consumer1", ["/main.Biz/Check", "/main.Biz/Add"])] :=
  (C6_startup_parse_characterization (Json.obj [("consumer1",
      Json.arr [Json.str "/main.Biz/Check", Json.str "/main.Biz/Add"])])).2.2.2
    _ rfl (by intro kv hkv; simp at hkv; subst hkv; rfl)

/-- C6 counterexample: the JSON literal `null` is not an object mapping
consumer names to arrays of pattern strings, yet startup succeeds — no error
is returned, no panic occurs, and the listener opens with an empty table. -/
theorem C6_null_spec_starts_up :
    isObjectOfStringArrays Json.null = false ∧
    (startMyMicroservice Json.null).err = none ∧
    (startMyMicroservice Json.null).crashed = false ∧
    (startMyMicroservice Json.null).listenerOpened = true := by
  exact ⟨rfl, rfl, rfl, rfl⟩

theorem busRun_shift (ops : List BusOp) :
    ∀ st : BusState, ops.foldl busStep st =
      (st.map fun p => (p.1, p.2 ++ publishesOf ops)) ++ expectedQueues ops := by
  induction ops with
  | nil => intro st; simp [publishesOf, expectedQueues]
  | cons op rest ih =>
    intro st
    cases op with
    | subscribe i =>
      rw [List.foldl_cons]
      show rest.foldl busStep (st ++ [(i, [])]) = _
      rw [ih (st ++ [(i, [])])]
      simp [publishesOf, expectedQueues, List.map_append]
    | publish e =>
      rw [List.foldl_cons]
      show rest.foldl busStep (st.map fun p => (p.1, p.2 ++ [e])) = _
      rw [ih (st.map fun p => (p.1, p.2 ++ [e]))]
      simp [publishesOf, expectedQueues, List.map_map, Function.comp]

/-- C7: after any trace of registrations and publishes, the dispatcher's
delivery ledger equals the spec-side ledger in which every subscriber's
queue holds exactly the events published after its registration, in publish
order — each event delivered to each registered subscriber exactly once,
with no gaps and no duplicates. -/
theorem C7_bus_delivers_in_publish_order (ops : List BusOp) :
    busRun ops = expectedQueues ops := by
  rw [busRun, busRun_shift ops []]
  rfl

theorem registry_listeners_monotone (ops : List RegistryOp) (i : Nat) :
    ∀ r : Registry, i ∈ r.listeners → i ∈ (ops.foldl registryStep r).listeners := by
  induction ops with
  | nil => intro r hr; exact hr
  | cons op rest ih =>
    intro r hr
    apply ih
    cases op with
    | addListener j => simp [registryStep, hr]
    | addStatListener j => exact hr
    | cancelStream j => exact hr

/-- C8 (code bug): a subscriber once registered stays registered through
every later operation — the source contains no unregistration path, and
cancellation of a streaming call's context leaves both subscriber slices
untouched, so no trace ever removes a subscriber from the bus. -/
theorem C8_no_operation_unregisters (ops₁ ops₂ : List RegistryOp) (i : Nat)
    (h : i ∈ (registryRun ops₁).listeners) :
    i ∈ (registryRun (ops₁ ++ ops₂)).listeners := by
  rw [registryRun, List.foldl_append]
  exact registry_listeners_monotone ops₂ i (registryRun ops₁) h

/-- C8 witness: after subscribing and then canceling the stream, subscriber 0
is still registered on the log bus. -/
theorem C8_no_operation_unregisters_witness :
    0 ∈ (registryRun ([RegistryOp.addListener 0] ++
        [RegistryOp.cancelStream 0])).listeners :=
  C8_no_operation_unregisters [RegistryOp.addListener 0]
    [RegistryOp.cancelStream 0] 0 (by decide)

/-- C9 (code bug): on shutdown `statsSender` sends the close signal on the
statListener's `closeCh`, but that channel is not among the channels the
`Statistics` handler selects on; the handler returns only on its local
`closeCh`, a channel no statement of the program ever sends on. So a stat
subscriber never observes the shutdown close and its handler never returns,
and the unbuffered rendezvous send in `statsSender` has no receiver. -/
theorem C9_stat_close_signal_never_received (i : Nat)
    (logIds statIds : List Nat) (st : StatWindow) (inp : StatisticsSelect) :
    statsSenderCloseSends [i] = [Chan.statListenerClose i] ∧
    Chan.statListenerClose i ∉ statisticsSelects i ∧
    (statisticsStep st inp = none ↔ inp = StatisticsSelect.recvLocalClose) ∧
    chanOfStatisticsSelect i StatisticsSelect.recvLocalClose =
      Chan.statLocalClose i ∧
    Chan.statLocalClose i ∉ programSendTargets logIds statIds := by
  refine ⟨rfl, ?_, ?_, rfl, ?_⟩
  · simp [statisticsSelects]
  · cases inp <;> simp [statisticsStep]
  · simp [programSendTargets]

/-- C10: every event the Logging handler sends carries the hard-coded host
"127.0.0.1:8083" and timestamp 0, whatever the audited call was; the model
has no listening-address input because the service struct retains none. -/
theorem C10_logging_event_constants (ins : List LoggingInput) (e : Event)
    (h : e ∈ loggingRun ins) :
    e.host = "127.0.0.1:8083" ∧ e.timestamp = 0 := by
  induction ins with
  | nil => simp [loggingRun] at h
  | cons op rest ih =>
    cases op with
    | close => simp [loggingRun] at h
    | msg m =>
      rcases List.mem_cons.mp (by simpa [loggingRun] using h) with he | he
      · subst he
        exact ⟨rfl, rfl⟩
      · exact ih he

/-- C10 witness: the event for one audited Check call by "c1". -/
theorem C10_logging_event_constants_witness :
    (loggingEvent { methodName := "/main.Biz/Check", consumerName := "c1" }).host
        = "127.0.0.1:8083" ∧
      (loggingEvent
        { methodName := "/main.Biz/Check", consumerName := "c1" }).timestamp
        = 0 :=
  C10_logging_event_constants
    [LoggingInput.msg { methodName := "/main.Biz/Check", consumerName := "c1" }]
    (loggingEvent { methodName := "/main.Biz/Check", consumerName := "c1" })
    (by simp [loggingRun])
